import Mathlib

/-!
Verification of the Interview Pilot client and orchestration engine.

Most definitions are shallow embeddings of the TypeScript sources under
`frontend/src` (`lib/types.ts`, `lib/constants.ts`, `lib/api.ts`,
`components/InterviewChat.tsx`, `components/HintPanel.tsx`,
`components/VoiceRecorder.tsx`).  Definitions whose doc comment starts
with `Modelled from the spec:` embed backend components that are declared
in the repository layout (`backend/`) but whose Python sources are not
present; those follow the specification text.
-/

namespace InterviewPilot

/-- Interviewer persona, from `types.ts`: `"HM" | "Tech" | "HR"`. -/
inductive Persona
  | HM
  | Tech
  | HR
deriving DecidableEq

/-- Answer quality label, from `types.ts` (`AnswerAnalysis.quality`):
`"strong" | "adequate" | "weak" | "evasive"`. -/
inductive Quality
  | strong
  | adequate
  | weak
  | evasive
deriving DecidableEq

/-- Session mode, from `types.ts` (`StartRequest.mode`): `"practice" | "real"`. -/
inductive Mode
  | practice
  | real
deriving DecidableEq

/-- Hint payload, from `types.ts` (`HintData`): all four fields optional. -/
structure HintData where
  bullets : Option (List String)
  personal_hooks : Option (List String)
  avoid : Option (List String)
  example_answer : Option String
deriving DecidableEq

/-- Length of an optional list, `0` when the field is absent: the semantics
of the JS truthiness test on `hints?.bullets?.length` in `HintPanel.tsx`. -/
def optLen (o : Option (List String)) : Nat :=
  (o.getD []).length

/-- Local state of the `HintPanel` component (`HintPanel.tsx` lines 13-14):
`open` and `showExample`, both initially `false`. -/
structure PanelState where
  isOpen : Bool
  showExample : Bool
deriving DecidableEq

/-- The initial `useState(false)` values of `HintPanel`. -/
def initPanelState : PanelState := ⟨false, false⟩

/-- What the rendered hint panel displays, one flag per section of the JSX
in `HintPanel.tsx` (key points, resume hooks, avoid list, the
"Show example answer" button, and the revealed example text). -/
structure PanelView where
  showsBullets : Bool
  showsHooks : Bool
  showsAvoid : Bool
  showsExampleButton : Bool
  showsExampleText : Bool
deriving DecidableEq

/-- Guard on `HintPanel.tsx` line 16: the component returns `null` unless
`bullets` or `personal_hooks` is a non-empty list. -/
def hintPanelVisible (h : HintData) : Bool :=
  (optLen h.bullets != 0) || (optLen h.personal_hooks != 0)

/-- Rendering of `HintPanel` given the hint data and its local state:
`none` when the line-16 guard fires; otherwise the sections that are
visible.  The collapsible body is shown only while `isOpen`; within it the
avoid list needs a non-empty `avoid`, and the example answer section needs
`example_answer` to be present, showing the reveal button before
`showExample` is set and the example text after. -/
def renderHintPanel (h : HintData) (ps : PanelState) : Option PanelView :=
  if hintPanelVisible h then
    some
      { showsBullets := ps.isOpen && (optLen h.bullets != 0)
        showsHooks := ps.isOpen && (optLen h.personal_hooks != 0)
        showsAvoid := ps.isOpen && (optLen h.avoid != 0)
        showsExampleButton := ps.isOpen && h.example_answer.isSome && !ps.showExample
        showsExampleText := ps.isOpen && h.example_answer.isSome && ps.showExample }
  else none

/-- Whether the avoid list is displayed for hint data `h` in panel state `ps`. -/
def avoidShown (h : HintData) (ps : PanelState) : Bool :=
  match renderHintPanel h ps with
  | none => false
  | some v => v.showsAvoid

/-- Whether the tier-3 example answer text is displayed for hint data `h`
in panel state `ps`. -/
def exampleShown (h : HintData) (ps : PanelState) : Bool :=
  match renderHintPanel h ps with
  | none => false
  | some v => v.showsExampleText

/-- User interactions on the hint panel: the Show/Hide Hints toggle
(`handleToggle`) and the explicit "Still stuck? Show example answer"
click (`onClick={() => setShowExample(true)}`). -/
inductive PanelAction
  | toggle
  | revealExample
deriving DecidableEq

/-- The only callback the panel can emit to its parent: the optional
`onReveal` prop (`HintPanel.tsx` line 19). -/
inductive PanelEmit
  | onReveal
deriving DecidableEq

/-- One step of the hint panel.  `wired` records whether the parent passed
an `onReveal` prop.  `handleToggle` fires `onReveal` (when wired) on the
transition from closed to open and flips `open`; the example-reveal click
only sets the local `showExample` flag and emits nothing. -/
def hintPanelStep (wired : Bool) (ps : PanelState) : PanelAction → PanelState × List PanelEmit
  | .toggle =>
      (⟨!ps.isOpen, ps.showExample⟩, if !ps.isOpen && wired then [PanelEmit.onReveal] else [])
  | .revealExample => (⟨ps.isOpen, true⟩, [])

/-- Panel state after a sequence of user interactions. -/
def runPanelState (wired : Bool) (ps : PanelState) : List PanelAction → PanelState
  | [] => ps
  | a :: as => runPanelState wired (hintPanelStep wired ps a).1 as

/-- All callbacks emitted by the panel over a sequence of interactions. -/
def runPanelEmits (wired : Bool) (ps : PanelState) : List PanelAction → List PanelEmit
  | [] => []
  | a :: as =>
      (hintPanelStep wired ps a).2 ++ runPanelEmits wired (hintPanelStep wired ps a).1 as

/-- How `InterviewChat.tsx` line 194 instantiates `HintPanel`:
`<HintPanel hints={currentHints} disabled={loading} />` — no `onReveal`
prop is passed, so the panel is not wired to any recording callback. -/
def interviewChatPanelWired : Bool := false

-- ── API data types (`lib/types.ts`) ──

/-- Per-answer analysis, from `types.ts` (`AnswerAnalysis`). -/
structure AnswerAnalysis where
  quality : Quality
  confidence_score : Int
  specificity_score : Int
  star_score : Int
  key_points_covered : List String
  missing_points : List String
  flags : List String
  summary : String
deriving DecidableEq

/-- One reported contradiction, from `types.ts`
(`ConsistencyResult.contradictions` entries). -/
structure Contradiction where
  description : String
  severity : String
deriving DecidableEq

/-- Consistency check result, from `types.ts` (`ConsistencyResult`). -/
structure ConsistencyResult where
  consistent : Bool
  contradictions : List Contradiction
  concerns : List String
deriving DecidableEq

/-- Routing decision payload, from `types.ts` (`RoutingResult`). -/
structure RoutingResult where
  next_persona : Persona
  action : String
  reason : String
  suggested_topic : Option String
deriving DecidableEq

/-- Voice metrics record, from `types.ts` (`VoiceMetrics`).  Numeric
fields are modelled as rationals and counts as naturals. -/
structure VoiceMetrics where
  response_latency_s : Option ℚ
  answer_duration_s : ℚ
  filler_count : Nat
  filler_words : List String
  word_count : Nat
  filler_rate_per_min : ℚ
deriving DecidableEq

/-- Body of `POST /api/interview/:id/answer`, from `types.ts`
(`AnswerRequest`): the answer text and optional voice metrics — no other
field exists on the request. -/
structure AnswerRequest where
  answer : String
  voice_metrics : Option VoiceMetrics
deriving DecidableEq

/-- Result of `GET /api/interview/:id/next`, from `types.ts`
(`NextQuestionResponse`). -/
structure NextQuestionResponse where
  done : Bool
  message : Option String
  question : Option String
  persona : Option Persona
  topic : Option String
  hints : Option HintData
deriving DecidableEq

/-- Result of submitting an answer, from `types.ts` (`AnswerResponse`). -/
structure AnswerResponse where
  analysis : AnswerAnalysis
  consistency : Option ConsistencyResult
  routing : RoutingResult
  turn_number : Nat
  is_interview_over : Bool
deriving DecidableEq

-- ── InterviewChat component state (`InterviewChat.tsx`) ──

/-- Chat message author, from `types.ts` (`ChatMessage.role`). -/
inductive MsgRole
  | interviewer
  | user
deriving DecidableEq

/-- A chat message, from `types.ts` (`ChatMessage`); the nondeterministic
DOM id is dropped. -/
structure ChatMsg where
  role : MsgRole
  persona : Option Persona
  text : String
  topic : Option String
  analysis : Option AnswerAnalysis
  hints : Option HintData
deriving DecidableEq

/-- Input mode toggle of `InterviewChat` (`useState<"voice" | "text">`). -/
inductive InputMode
  | voice
  | text
deriving DecidableEq

/-- The `useState` hooks of `InterviewChat` (`InterviewChat.tsx`
lines 31-42) gathered into one record. -/
structure ChatState where
  messages : List ChatMsg
  inputText : String
  inputMode : InputMode
  loading : Bool
  currentHints : Option HintData
  currentQuestion : Nat
  lastAnalysis : Option AnswerAnalysis
  lastPersona : Option Persona
  isDone : Bool
  currentPersona : Option Persona
  currentQuestionText : String
  voiceTranscript : String
deriving DecidableEq

/-- The initial values of the `useState` hooks of `InterviewChat`. -/
def initChatState : ChatState :=
  { messages := []
    inputText := ""
    inputMode := .voice
    loading := false
    currentHints := none
    currentQuestion := 0
    lastAnalysis := none
    lastPersona := none
    isDone := false
    currentPersona := none
    currentQuestionText := ""
    voiceTranscript := "" }

/-- The user message appended by `handleSubmitAnswer` (`InterviewChat.tsx`
lines 98-102). -/
def userMessage (text : String) : ChatMsg :=
  { role := .user, persona := none, text := text, topic := none, analysis := none, hints := none }

/-- The interviewer message appended by `fetchNextQuestion`
(`InterviewChat.tsx` lines 72-79). -/
def interviewerMessage (p : Persona) (q : String) (topic : Option String)
    (hints : Option HintData) : ChatMsg :=
  { role := .interviewer, persona := some p, text := q, topic := topic,
    analysis := none, hints := hints }

/-- The JS `String.prototype.trim()`: drop leading and trailing
whitespace (executable model over the character list). -/
def jsTrim (s : String) : String :=
  ⟨((s.data.dropWhile Char.isWhitespace).reverse.dropWhile Char.isWhitespace).reverse⟩

/-- The synchronous part of `handleSubmitAnswer` (`InterviewChat.tsx`
lines 93-113): the guard `if (!answerText.trim() || loading) return;`
leaves everything unchanged and issues no request; otherwise the user
message is appended, the input, transcript and hints are cleared,
`loading` is set, and the answer request is issued. -/
def handleSubmitAnswerStart (st : ChatState) (answerText : String)
    (vm : Option VoiceMetrics) : ChatState × Option AnswerRequest :=
  if jsTrim answerText = "" ∨ st.loading = true then (st, none)
  else
    ({ st with
        messages := st.messages ++ [userMessage answerText]
        inputText := ""
        voiceTranscript := ""
        currentHints := none
        loading := true },
      some { answer := answerText, voice_metrics := vm })

/-- Attach the returned analysis to the just-appended user message, the
effect of the `setMessages(prev.map(...))` call on `InterviewChat.tsx`
lines 116-120 (the updated id is the last user message appended). -/
def attachAnalysisToLast (a : AnswerAnalysis) : List ChatMsg → List ChatMsg
  | [] => []
  | [m] => [if m.role = MsgRole.user then { m with analysis := some a } else m]
  | m :: ms => m :: attachAnalysisToLast a ms

/-- The response-processing part of `handleSubmitAnswer`
(`InterviewChat.tsx` lines 114-134): record the analysis, mark the
interview done when the server says so, and release `loading` in the
`finally` block. -/
def handleSubmitAnswerFinish (st : ChatState) (res : AnswerResponse) : ChatState :=
  { st with
    messages := attachAnalysisToLast res.analysis st.messages
    lastAnalysis := some res.analysis
    lastPersona := st.currentPersona
    isDone := st.isDone || res.is_interview_over
    loading := false }

/-- Processing of a `NextQuestionResponse` by `fetchNextQuestion`
(`InterviewChat.tsx` lines 63-91), with the `finally` release of
`loading`. -/
def processNextQuestion (st : ChatState) (res : NextQuestionResponse) : ChatState :=
  if res.done then { st with isDone := true, loading := false }
  else
    match res.question, res.persona with
    | some q, some p =>
        { st with
          messages := st.messages ++ [interviewerMessage p q res.topic res.hints]
          currentHints := res.hints
          currentPersona := some p
          currentQuestionText := q
          currentQuestion := st.currentQuestion + 1
          loading := false }
    | _, _ => { st with loading := false }

/-- The render gate for the hint panel, `InterviewChat.tsx` line 192:
`currentHints && mode === "practice"`. -/
def chatShowsHintPanel (mode : Mode) (currentHints : Option HintData) : Bool :=
  currentHints.isSome && (mode == Mode.practice)

-- ── Turn pipeline trace model (for the per-session sequencing claim) ──

/-- Events of the client turn pipeline: a submit attempt (text or voice),
and the settling of the in-flight request — `some res` when the response
arrived and was processed (including the follow-on question fetch),
`none` when the request failed and was handled by the `catch` block.
Both settle paths end in the `finally` that releases `loading`. -/
inductive ClientEvent
  | submitAttempt (text : String) (vm : Option VoiceMetrics)
  | turnSettled (res : Option AnswerResponse)
deriving DecidableEq

/-- State transition of the client for one event. -/
def stepClientState (st : ChatState) : ClientEvent → ChatState
  | .submitAttempt t vm => (handleSubmitAnswerStart st t vm).1
  | .turnSettled (some res) => handleSubmitAnswerFinish st res
  | .turnSettled none => { st with loading := false }

/-- The answer request (if any) issued by the client on one event. -/
def stepClientEmit (st : ChatState) : ClientEvent → Option AnswerRequest
  | .submitAttempt t vm => (handleSubmitAnswerStart st t vm).2
  | .turnSettled _ => none

/-- All answer requests issued over a trace of client events. -/
def clientRequests (st : ChatState) : List ClientEvent → List AnswerRequest
  | [] => []
  | e :: es => (stepClientEmit st e).toList ++ clientRequests (stepClientState st e) es

/-- Whether an event settles the in-flight turn request. -/
def isSettle : ClientEvent → Bool
  | .turnSettled _ => true
  | _ => false

-- ── Evaluation report types (`lib/types.ts`) ──

/-- STAR breakdown of one evaluated question, from `types.ts`
(`PerQuestionEval.star`). -/
structure StarBreakdown where
  score : Int
  situation : Bool
  task : Bool
  action : Bool
  result : Bool
  feedback : String
deriving DecidableEq

/-- Per-question record of the evaluation report, from `types.ts`
(`PerQuestionEval`). -/
structure PerQuestionEval where
  turn_number : Nat
  persona : Persona
  question : String
  answer_preview : String
  quality : String
  confidence_score : Int
  specificity_score : Int
  star : StarBreakdown
  flags : List String
  hint_used : Bool
deriving DecidableEq

/-- Hint usage buckets, from `types.ts` (`HintAnalysis.breakdown`). -/
structure HintBreakdown where
  no_hint_needed : Nat
  hint_used_answered_well : Nat
  hint_used_still_weak : Nat
deriving DecidableEq

/-- Hint analysis section of the report, from `types.ts` (`HintAnalysis`). -/
structure HintAnalysis where
  total_questions : Nat
  hints_used : Nat
  hints_not_used : Nat
  breakdown : HintBreakdown
  hint_usage_rate : ℚ
  focus_topics : List String
deriving DecidableEq

/-- Voice summary section of the report, from `types.ts` (`VoiceSummary`). -/
structure VoiceSummary where
  has_voice_data : Bool
  avg_response_latency_s : Option ℚ
  avg_filler_rate_per_min : Option ℚ
  total_filler_count : Option Nat
  avg_answer_duration_s : Option ℚ
  avg_word_count : Option ℚ
deriving DecidableEq

/-- Model answer for a weak or evasive turn, from `types.ts`
(`ModelAnswer`). -/
structure ModelAnswer where
  turn_number : Nat
  question : String
  original_quality : String
  improved_answer : String
  reasoning : List String
  tips : List String
  score_before : Int
  score_after : Int
deriving DecidableEq

/-- The full evaluation report, from `types.ts` (`EvaluationReport`). -/
structure EvaluationReport where
  overall_score : ℚ
  persona_scores : List (Persona × ℚ)
  strengths : List String
  weaknesses : List String
  per_question : List PerQuestionEval
  consistency : ConsistencyResult
  hint_analysis : HintAnalysis
  voice_summary : VoiceSummary
  model_answers : List ModelAnswer
  action_plan : List String
deriving DecidableEq

-- ── Spec-modelled backend: turns, evaluation cache, analyzer, routing ──

/-- Modelled from the spec: the backend `InterviewTurn` record (spec §3;
`backend/core/state.py` is not under `src/`). -/
structure InterviewTurn where
  turn_number : Nat
  persona : Persona
  question : String
  topic : String
  answer_text : String
  voice_metrics : Option VoiceMetrics
  analysis : AnswerAnalysis
  consistency : Option ConsistencyResult
  hint_used : Bool
deriving DecidableEq

/-- Modelled from the spec: the backend session record consulted by the
evaluation endpoint — the turn history plus the report slot that caches
the evaluation once computed (spec §4.1 and §5; `backend/api/interview.py`
and `backend/agents/evaluation_agent.py` are not under `src/`). -/
structure EvalSession where
  turns : List InterviewTurn
  report : Option EvaluationReport
deriving DecidableEq

/-- Modelled from the spec: `evaluate` is an idempotent get-or-compute —
re-invocation on an already-done session returns the cached report rather
than recomputing (spec §4.1 `EVALUATING→DONE` and §5).  The synthesis of
the report itself is abstracted as the `compute` argument. -/
def evaluate (compute : List InterviewTurn → EvaluationReport) (s : EvalSession) :
    EvaluationReport × EvalSession :=
  match s.report with
  | some r => (r, s)
  | none =>
      let r := compute s.turns
      (r, { s with report := some r })

/-- Modelled from the spec: backend score clamping — "scores outside
[0,100] clamp to range" (spec §7; `backend/tools/llm_tools.py` is not
under `src/`). -/
def clampScore (n : Int) : Int := max 0 (min 100 n)

/-- Modelled from the spec: quality classification thresholds of the
answer analyzer — `strong` at composite ≥ 75, `adequate` at 50-74, `weak`
at 25-49, `evasive` below 25 or when an explicit non-answer is detected
(spec §4.3; `backend/tools/llm_tools.py` is not under `src/`). -/
def classifyQuality (composite : Int) (nonAnswer : Bool) : Quality :=
  if nonAnswer then .evasive
  else if 75 ≤ composite then .strong
  else if 50 ≤ composite then .adequate
  else if 25 ≤ composite then .weak
  else .evasive

/-- Modelled from the spec: per-topic weights of the composite score
(STAR weighted highest for behavioral topics, lowest for technical
topics; spec §4.3). -/
structure ScoreWeights where
  confidence : Nat
  specificity : Nat
  star : Nat
deriving DecidableEq

/-- Modelled from the spec: the composite score as the weighted average of
confidence, specificity and STAR scores (spec §4.3). -/
def compositeScore (w : ScoreWeights) (confidence specificity star : Int) : Int :=
  ((w.confidence : Int) * confidence + (w.specificity : Int) * specificity
      + (w.star : Int) * star) / ((w.confidence : Int) + (w.specificity : Int) + (w.star : Int))

/-- Modelled from the spec: the raw, unvalidated model output consumed by
the answer analyzer before clamping and classification (spec §4.3, §7). -/
structure RawAnalysis where
  confidence_score : Int
  specificity_score : Int
  star_score : Int
  non_answer : Bool
  key_points_covered : List String
  missing_points : List String
  flags : List String
  summary : String
deriving DecidableEq

/-- Modelled from the spec: the answer analyzer — clamp each score to
[0,100], form the weighted composite, and classify quality by the
documented thresholds (spec §4.3 and §7; `backend/tools/llm_tools.py` is
not under `src/`). -/
def analyzeAnswer (w : ScoreWeights) (raw : RawAnalysis) : AnswerAnalysis :=
  let c := clampScore raw.confidence_score
  let s := clampScore raw.specificity_score
  let t := clampScore raw.star_score
  { quality := classifyQuality (compositeScore w c s t) raw.non_answer
    confidence_score := c
    specificity_score := s
    star_score := t
    key_points_covered := raw.key_points_covered
    missing_points := raw.missing_points
    flags := raw.flags
    summary := raw.summary }

/-- Routing actions, the closed enum from `types.ts`
(`RoutingResult.action`) and spec §4.2/§9. -/
inductive RouteAction
  | follow_up
  | next_question
  | switch_persona
  | end_interview
deriving DecidableEq

/-- The per-turn signals the routing decision consumes: the answer
quality, whether a critical flag was raised, whether the current plan
item closes the persona block, and whether the configured end condition
(repeated evasive answers past the limit) has fired. -/
structure TurnSignal where
  quality : Quality
  criticalFlag : Bool
  lastOfBlock : Bool
  endSignal : Bool
deriving DecidableEq

/-- Modelled from the spec: the routing decision of §4.2 — evasive
answers or critical flags probe with a follow-up, weak answers get a
follow-up when the budget is intact, and in every case at most one
follow-up per plan item before a forced advance
(`backend/tools/llm_tools.py` persona router is not under `src/`). -/
def routeDecision (sig : TurnSignal) (followUpUsed : Bool) : RouteAction :=
  if sig.endSignal then .end_interview
  else if followUpUsed = false ∧ (sig.quality = .evasive ∨ sig.criticalFlag = true) then .follow_up
  else if followUpUsed = false ∧ sig.quality = .weak then .follow_up
  else if sig.lastOfBlock then .switch_persona
  else .next_question

/-- Orchestrator routing state: the index of the current plan item and
whether its single follow-up has already been spent. -/
structure OrchState where
  itemIdx : Nat
  followUpUsed : Bool
deriving DecidableEq

/-- Modelled from the spec: the orchestrator loop serving one routing
decision per answered turn — a follow-up stays on the item and spends its
budget, `end_interview` stops, and any other action advances to the next
plan item with a fresh budget (spec §4.1 and §4.2). -/
def orchRun (st : OrchState) : List TurnSignal → List (Nat × RouteAction)
  | [] => []
  | sig :: rest =>
      match routeDecision sig st.followUpUsed with
      | .follow_up =>
          (st.itemIdx, RouteAction.follow_up) :: orchRun ⟨st.itemIdx, true⟩ rest
      | .end_interview => [(st.itemIdx, RouteAction.end_interview)]
      | d => (st.itemIdx, d) :: orchRun ⟨st.itemIdx + 1, false⟩ rest

/-- How often plan item `i` received a `follow_up` decision in a routing
trace. -/
def countFollowUps (i : Nat) : List (Nat × RouteAction) → Nat
  | [] => 0
  | p :: tr =>
      (if p.1 = i ∧ p.2 = RouteAction.follow_up then 1 else 0) + countFollowUps i tr

-- ── Voice sample conversion (`VoiceRecorder.tsx`, `processor.onaudioprocess`) ──

/-- Clamp of one audio sample, `Math.max(-1, Math.min(1, float32[i]))`
(`VoiceRecorder.tsx` line 107).  Samples are modelled as rationals. -/
def clampSample (x : ℚ) : ℚ := max (-1) (min 1 x)

/-- Float-to-16-bit-PCM conversion, `s < 0 ? s * 0x8000 : s * 0x7fff`
(`VoiceRecorder.tsx` line 108) applied to the clamped sample. -/
def floatToPcm16 (x : ℚ) : ℚ :=
  if clampSample x < 0 then clampSample x * 32768 else clampSample x * 32767

-- ── Voice recorder socket events (`VoiceRecorder.tsx` and `InterviewChat.tsx`) ──

/-- Typed events received on the voice WebSocket (`VoiceRecorder.tsx`,
`ws.onmessage` lines 66-83).  The `"partial"` message is named `interim`
here and the `"final"` message `finalSeg`. -/
inductive VoiceMsg
  | interim (text : String)
  | finalSeg (text : String)
  | done (transcript : String) (voice_metrics : VoiceMetrics)
  | errorMsg (message : String)
deriving DecidableEq

/-- Callbacks the recorder fires towards its parent (`VoiceRecorder` props
`onTranscript`, `onDone`, `onError`). -/
inductive VoiceCallback
  | onTranscript (text : String) (isFinal : Bool)
  | onDone (transcript : String) (voice_metrics : VoiceMetrics)
  | onError (message : String)
deriving DecidableEq

/-- Dispatch of an incoming socket message by `ws.onmessage`: partial and
final transcripts go to `onTranscript`, `done` carries its transcript and
voice metrics to `onDone`, and a typed `error` event goes to `onError`. -/
def onVoiceMessage : VoiceMsg → VoiceCallback
  | .interim t => .onTranscript t false
  | .finalSeg t => .onTranscript t true
  | .done t vm => .onDone t vm
  | .errorMsg m => .onError m

/-- The `ws.onerror` handler (`VoiceRecorder.tsx` lines 85-89): a socket
failure only surfaces an error. -/
def socketErrorCallback : VoiceCallback := .onError "WebSocket connection failed"

/-- How `InterviewChat` wires the recorder callbacks (`InterviewChat.tsx`
lines 144-157 and 280-286): `onDone` is `handleVoiceDone`, which submits
the transcript together with its metrics through `handleSubmitAnswer`;
`onTranscript` is `handleVoiceTranscript`, which only updates the
transcript preview; `onError` only logs the message. -/
def dispatchVoiceCallback (st : ChatState) : VoiceCallback → ChatState × Option AnswerRequest
  | .onDone t vm => handleSubmitAnswerStart st t (some vm)
  | .onTranscript t isFinal =>
      ({ st with voiceTranscript :=
          if isFinal then st.voiceTranscript ++ " " ++ t else t }, none)
  | .onError _ => (st, none)

/-- Client state after one voice socket message. -/
def voiceStepState (st : ChatState) (m : VoiceMsg) : ChatState :=
  (dispatchVoiceCallback st (onVoiceMessage m)).1

/-- The answer request (if any) issued on one voice socket message. -/
def voiceStepEmit (st : ChatState) (m : VoiceMsg) : Option AnswerRequest :=
  (dispatchVoiceCallback st (onVoiceMessage m)).2

/-- All answer requests issued over one voice-recording run, given the
sequence of socket messages of that run. -/
def voiceRequests (st : ChatState) : List VoiceMsg → List AnswerRequest
  | [] => []
  | m :: ms => (voiceStepEmit st m).toList ++ voiceRequests (voiceStepState st m) ms

-- ── Real-mode hint model ──

/-- Modelled from the spec: the backend `get_next` endpoint
(`backend/api/interview.py`, not under `src/`) omits hints when the
session mode is `real`: "hints omitted/empty when mode=real". -/
def serveNext (mode : Mode) (res : NextQuestionResponse) : NextQuestionResponse :=
  match mode with
  | .practice => res
  | .real => { res with hints := none }

/-- Client events of a real-mode session: receiving the next question
(served through the real-mode backend), a submit attempt, and the
settling of an answer request. -/
inductive RealEvent
  | nextQ (res : NextQuestionResponse)
  | submitAttempt (text : String) (vm : Option VoiceMetrics)
  | turnSettled (res : Option AnswerResponse)

/-- One client step in a real-mode session. -/
def stepRealMode (st : ChatState) : RealEvent → ChatState
  | .nextQ res => processNextQuestion st (serveNext Mode.real res)
  | .submitAttempt t vm => (handleSubmitAnswerStart st t vm).1
  | .turnSettled (some res) => handleSubmitAnswerFinish st res
  | .turnSettled none => { st with loading := false }

/-- Client state after a trace of real-mode events. -/
def runRealMode (st : ChatState) : List RealEvent → ChatState
  | [] => st
  | e :: es => runRealMode (stepRealMode st e) es


-- ── Theorems ──

/-- C10: for every audio sample, the float-to-PCM conversion first clamps
to `[-1, 1]` and then scales (negative samples by 32768, non-negative by
32767), so the produced 16-bit sample always lies in `[-32768, 32767]`,
for all inputs including values outside `[-1, 1]`. -/
theorem pcm16_sample_in_range (x : ℚ) :
    -32768 ≤ floatToPcm16 x ∧ floatToPcm16 x ≤ 32767 := by
  have h1 : -1 ≤ clampSample x := le_max_left _ _
  have h2 : clampSample x ≤ 1 := max_le (by norm_num) (min_le_left _ _)
  unfold floatToPcm16
  split <;> constructor <;> nlinarith

/-- C9: when `bullets` and `personal_hooks` are both empty or absent, the
hint panel renders nothing, so neither the avoid list nor the example
answer can be revealed — whatever those fields contain and whatever the
panel state is. -/
theorem empty_hints_render_nothing (h : HintData) (ps : PanelState)
    (hb : optLen h.bullets = 0) (hh : optLen h.personal_hooks = 0) :
    renderHintPanel h ps = none ∧ avoidShown h ps = false ∧ exampleShown h ps = false := by
  have hv : hintPanelVisible h = false := by
    simp [hintPanelVisible, hb, hh]
  refine ⟨?_, ?_, ?_⟩ <;> simp [renderHintPanel, avoidShown, exampleShown, hv]

/-- C9 witness: hint data with an empty tier 1 but a non-empty avoid list
and a present example answer still renders nothing, even with the panel
opened and the example reveal flag set. -/
theorem empty_hints_render_nothing_witness :
    renderHintPanel ⟨none, some [], some ["rambling"], some "sample answer"⟩ ⟨true, true⟩ = none ∧
    avoidShown ⟨none, some [], some ["rambling"], some "sample answer"⟩ ⟨true, true⟩ = false ∧
    exampleShown ⟨none, some [], some ["rambling"], some "sample answer"⟩ ⟨true, true⟩ = false :=
  empty_hints_render_nothing _ _ rfl rfl

theorem stepRealMode_no_hints (st : ChatState) (e : RealEvent)
    (h : st.currentHints = none) : (stepRealMode st e).currentHints = none := by
  cases e with
  | nextQ res =>
      simp only [stepRealMode, processNextQuestion, serveNext]
      split
      · simpa using h
      · rcases hq : res.question with _ | q <;> rcases hp : res.persona with _ | p <;>
          simp [hq, hp, h]
  | submitAttempt t vm =>
      simp only [stepRealMode, handleSubmitAnswerStart]
      split
      · simpa using h
      · simp
  | turnSettled r =>
      cases r <;> simpa [stepRealMode, handleSubmitAnswerFinish] using h

/-- C3: in a real-mode session the served next-question payload never
carries hints, the hint panel render gate is closed whatever the stored
hints are, and along every trace of real-mode client events the stored
`currentHints` stays `none` — so no hint content is ever displayed. -/
theorem real_mode_no_hints (tr : List RealEvent) (c : Option HintData)
    (res : NextQuestionResponse) :
    (serveNext Mode.real res).hints = none ∧
    chatShowsHintPanel Mode.real c = false ∧
    (runRealMode initChatState tr).currentHints = none := by
  refine ⟨rfl, by simp [chatShowsHintPanel], ?_⟩
  have key : ∀ (st : ChatState), st.currentHints = none →
      (runRealMode st tr).currentHints = none := by
    induction tr with
    | nil => intro st h; simpa [runRealMode] using h
    | cons e es ih =>
        intro st h
        exact ih _ (stepRealMode_no_hints st e h)
  exact key initChatState rfl

-- ── Hint panel dynamics lemmas ──

theorem runPanelState_showExample_stable (wired : Bool) (acts : List PanelAction)
    (ps : PanelState) (hna : PanelAction.revealExample ∉ acts)
    (h : ps.showExample = false) :
    (runPanelState wired ps acts).showExample = false := by
  induction acts generalizing ps with
  | nil => simpa [runPanelState] using h
  | cons a as ih =>
      have ha : a ≠ PanelAction.revealExample := fun hEq => hna (hEq ▸ List.mem_cons_self a as)
      have has : PanelAction.revealExample ∉ as := fun hmem => hna (List.mem_cons_of_mem a hmem)
      cases a with
      | toggle => exact ih _ has (by simpa [hintPanelStep] using h)
      | revealExample => exact absurd rfl ha

theorem runPanelEmits_unwired (ps : PanelState) (acts : List PanelAction) :
    runPanelEmits interviewChatPanelWired ps acts = [] := by
  induction acts generalizing ps with
  | nil => rfl
  | cons a as ih =>
      simp only [interviewChatPanelWired] at ih ⊢
      cases a <;> simp only [runPanelEmits, hintPanelStep] <;>
        simpa using ih _

theorem exampleShown_needs_flag (h : HintData) (ps : PanelState)
    (hf : ps.showExample = false) : exampleShown h ps = false := by
  cases hv : hintPanelVisible h with
  | false => simp [exampleShown, renderHintPanel, hv]
  | true => simp [exampleShown, renderHintPanel, hv, hf]

/-- C4 (amended): revealing the tier-3 `example_answer` does require an
explicit reveal action beyond opening the tier-1/tier-2 hints — no
interaction sequence avoiding that action ever displays the example —
but the reveal is not recorded: the reveal click only mutates panel-local
state and emits nothing, and the panel as instantiated by `InterviewChat`
is not wired to any callback, so no hint-usage signal exists that could
set `hint_used` or a weak escalation flag for the turn. -/
theorem tier3_explicit_reveal_unrecorded (wired : Bool) (h : HintData)
    (acts : List PanelAction) (ps : PanelState) :
    (PanelAction.revealExample ∉ acts →
      exampleShown h (runPanelState wired initPanelState acts) = false) ∧
    runPanelEmits interviewChatPanelWired initPanelState acts = [] ∧
    (hintPanelStep wired ps PanelAction.revealExample).2 = [] := by
  refine ⟨fun hna => ?_, runPanelEmits_unwired _ _, rfl⟩
  exact exampleShown_needs_flag h _ (runPanelState_showExample_stable wired acts _ hna rfl)

/-- C4 amended witness: merely opening the hint panel shows no example
answer and emits nothing. -/
theorem tier3_explicit_reveal_unrecorded_witness :
    exampleShown ⟨some ["key point"], none, none, some "sample answer"⟩
      (runPanelState false initPanelState [PanelAction.toggle]) = false :=
  (tier3_explicit_reveal_unrecorded false
      ⟨some ["key point"], none, none, some "sample answer"⟩
      [PanelAction.toggle] initPanelState).1 (by decide)

/-- C4 counterexample: opening the hints and explicitly revealing the
tier-3 example answer does display the example, yet the panel as
instantiated by `InterviewChat` emits no callback at all, so nothing
records `hint_used = true` (or any escalation flag) for the turn. -/
theorem tier3_reveal_unrecorded_cex :
    exampleShown ⟨some ["key point"], none, none, some "sample answer"⟩
      (runPanelState interviewChatPanelWired initPanelState
        [PanelAction.toggle, PanelAction.revealExample]) = true ∧
    runPanelEmits interviewChatPanelWired initPanelState
      [PanelAction.toggle, PanelAction.revealExample] = [] := by
  constructor <;> rfl

/-- C5: over one voice-recording run, every answer request the client
issues comes from a `done` socket event and consists of exactly that
event's final transcript and voice metrics; a run that carries no `done`
event — in particular one that fails with a typed `error` event or a
socket error — never submits an answer; and error events surface through
the `onError` callback. -/
theorem voice_submit_only_on_done (st : ChatState) (ms : List VoiceMsg) (m : String) :
    (∀ req ∈ voiceRequests st ms,
        ∃ vm, VoiceMsg.done req.answer vm ∈ ms ∧ req.voice_metrics = some vm) ∧
    ((∀ t vm, VoiceMsg.done t vm ∉ ms) → voiceRequests st ms = []) ∧
    onVoiceMessage (VoiceMsg.errorMsg m) = VoiceCallback.onError m ∧
    socketErrorCallback = VoiceCallback.onError "WebSocket connection failed" := by
  have main : ∀ (st : ChatState), ∀ req ∈ voiceRequests st ms,
      ∃ vm, VoiceMsg.done req.answer vm ∈ ms ∧ req.voice_metrics = some vm := by
    induction ms with
    | nil => intro st req hreq; simp [voiceRequests] at hreq
    | cons msg rest ih =>
        intro st req hreq
        simp only [voiceRequests, List.mem_append] at hreq
        rcases hreq with hreq | hreq
        · cases msg with
          | interim t =>
              simp [voiceStepEmit, onVoiceMessage, dispatchVoiceCallback] at hreq
          | finalSeg t =>
              simp [voiceStepEmit, onVoiceMessage, dispatchVoiceCallback] at hreq
          | errorMsg t =>
              simp [voiceStepEmit, onVoiceMessage, dispatchVoiceCallback] at hreq
          | done t vm =>
              simp only [voiceStepEmit, onVoiceMessage, dispatchVoiceCallback,
                handleSubmitAnswerStart] at hreq
              split at hreq
              · simp at hreq
              · simp at hreq
                subst hreq
                exact ⟨vm, List.mem_cons_self _ _, rfl⟩
        · obtain ⟨vm, hmem, hvm⟩ := ih _ req hreq
          exact ⟨vm, List.mem_cons_of_mem _ hmem, hvm⟩
  refine ⟨main st, fun hno => ?_, rfl, rfl⟩
  by_contra hne
  obtain ⟨req, hreq⟩ := List.exists_mem_of_ne_nil _ hne
  obtain ⟨vm, hmem, _⟩ := main st req hreq
  exact hno _ _ hmem

/-- C5 witness: a run whose socket messages are a partial transcript and a
typed error event issues no answer request. -/
theorem voice_submit_only_on_done_witness :
    voiceRequests initChatState [VoiceMsg.interim "I led", VoiceMsg.errorMsg "mic failed"] = [] :=
  (voice_submit_only_on_done initChatState
      [VoiceMsg.interim "I led", VoiceMsg.errorMsg "mic failed"] "mic failed").2.1
    (by intro t vm hmem; simp at hmem)

/-- C8: a submit attempt whose answer text is empty or only whitespace
changes nothing: no request is issued, no user message is appended, and
the component state is returned unchanged. -/
theorem blank_answer_never_submitted (st : ChatState) (t : String)
    (vm : Option VoiceMetrics) (hb : jsTrim t = "") :
    handleSubmitAnswerStart st t vm = (st, none) := by
  simp [handleSubmitAnswerStart, hb]

/-- C8 witness: a three-space answer is rejected without any effect. -/
theorem blank_answer_never_submitted_witness :
    handleSubmitAnswerStart initChatState "   " none = (initChatState, none) :=
  blank_answer_never_submitted initChatState "   " none (by decide)

/-- C1: per session, turn processing is mutually exclusive: over any trace
of client events, the number of answer requests the client issues never
exceeds the number of settled turns plus one (plus zero when a turn is
already in flight) — so while a submitted answer is in flight no second
answer can be submitted, and a new submission only becomes possible once
the previous request has settled and `loading` was released. -/
theorem submitAnswer_mutual_exclusion (st : ChatState) (tr : List ClientEvent) :
    (clientRequests st tr).length ≤
      tr.countP isSettle + (if st.loading then 0 else 1) := by
  induction tr generalizing st with
  | nil => simp [clientRequests]
  | cons e es ih =>
    cases e with
    | submitAttempt t vm =>
      by_cases hc : jsTrim t = "" ∨ st.loading = true
      · have hstep : stepClientState st (ClientEvent.submitAttempt t vm) = st := by
          simp [stepClientState, handleSubmitAnswerStart, hc]
        have hemit : stepClientEmit st (ClientEvent.submitAttempt t vm) = none := by
          simp [stepClientEmit, handleSubmitAnswerStart, hc]
        simpa [clientRequests, hstep, hemit, isSettle] using ih st
      · have hload : st.loading = false := by
          cases h : st.loading
          · rfl
          · exact absurd (Or.inr h) hc
        have hstep : (stepClientState st (ClientEvent.submitAttempt t vm)).loading = true := by
          simp [stepClientState, handleSubmitAnswerStart, hc]
        have ih2 := ih (stepClientState st (ClientEvent.submitAttempt t vm))
        rw [hstep] at ih2
        have hemit : stepClientEmit st (ClientEvent.submitAttempt t vm) =
            some { answer := t, voice_metrics := vm } := by
          simp [stepClientEmit, handleSubmitAnswerStart, hc]
        simp only [clientRequests, hemit, Option.toList_some, List.length_append,
          List.length_cons, List.length_nil, List.countP_cons, isSettle, hload]
        simp at ih2 ⊢
        omega
    | turnSettled r =>
      have hload : (stepClientState st (ClientEvent.turnSettled r)).loading = false := by
        cases r <;> simp [stepClientState, handleSubmitAnswerFinish]
      have ih2 := ih (stepClientState st (ClientEvent.turnSettled r))
      rw [hload] at ih2
      have hemit : stepClientEmit st (ClientEvent.turnSettled r) = none := by
        simp [stepClientEmit]
      simp only [clientRequests, hemit, Option.toList_none, List.nil_append,
        List.countP_cons, isSettle]
      simp at ih2
      cases h : st.loading <;> simp [h] <;> omega

-- ── Spec-modelled backend lemmas and claims ──

theorem clampScore_bounds (n : Int) : 0 ≤ clampScore n ∧ clampScore n ≤ 100 :=
  ⟨le_max_left _ _, max_le (by norm_num) (min_le_left _ _)⟩

theorem classifyQuality_iff (c : Int) (na : Bool) :
    (classifyQuality c na = Quality.strong ↔ na = false ∧ 75 ≤ c) ∧
    (classifyQuality c na = Quality.adequate ↔ na = false ∧ 50 ≤ c ∧ c ≤ 74) ∧
    (classifyQuality c na = Quality.weak ↔ na = false ∧ 25 ≤ c ∧ c ≤ 49) ∧
    (classifyQuality c na = Quality.evasive ↔ na = true ∨ c < 25) := by
  cases na <;> unfold classifyQuality <;> split_ifs <;>
    refine ⟨?_, ?_, ?_, ?_⟩ <;> simp_all <;> omega

/-- C2: an analyzed answer has all three scores as integers clamped to
`[0, 100]`, and its quality label is exactly determined from the
composite score by the documented thresholds: `strong` at composite
≥ 75, `adequate` at 50-74, `weak` at 25-49, and `evasive` below 25 or on
an explicit non-answer. -/
theorem analysis_scores_clamped_quality_thresholds (w : ScoreWeights) (raw : RawAnalysis) :
    let a := analyzeAnswer w raw
    let comp := compositeScore w a.confidence_score a.specificity_score a.star_score
    (0 ≤ a.confidence_score ∧ a.confidence_score ≤ 100) ∧
    (0 ≤ a.specificity_score ∧ a.specificity_score ≤ 100) ∧
    (0 ≤ a.star_score ∧ a.star_score ≤ 100) ∧
    (a.quality = Quality.strong ↔ raw.non_answer = false ∧ 75 ≤ comp) ∧
    (a.quality = Quality.adequate ↔ raw.non_answer = false ∧ 50 ≤ comp ∧ comp ≤ 74) ∧
    (a.quality = Quality.weak ↔ raw.non_answer = false ∧ 25 ≤ comp ∧ comp ≤ 49) ∧
    (a.quality = Quality.evasive ↔ raw.non_answer = true ∨ comp < 25) := by
  intro a comp
  have hq : a.quality = classifyQuality comp raw.non_answer := rfl
  have hch := classifyQuality_iff comp raw.non_answer
  refine ⟨clampScore_bounds _, clampScore_bounds _, clampScore_bounds _, ?_, ?_, ?_, ?_⟩
  · rw [hq]; exact hch.1
  · rw [hq]; exact hch.2.1
  · rw [hq]; exact hch.2.2.1
  · rw [hq]; exact hch.2.2.2

/-- C6: evaluating the same session twice yields identical results — the
first call stores the computed report, and any re-invocation (whatever
compute function it would use) returns the cached report and leaves the
session unchanged, never recomputing. -/
theorem evaluate_idempotent_cached (f g : List InterviewTurn → EvaluationReport)
    (s : EvalSession) :
    evaluate g (evaluate f s).2 = ((evaluate f s).1, (evaluate f s).2) ∧
    (evaluate f s).2.report = some (evaluate f s).1 := by
  cases hr : s.report <;> simp [evaluate, hr]

theorem routeDecision_spent_not_followup (sig : TurnSignal) :
    routeDecision sig true ≠ RouteAction.follow_up := by
  unfold routeDecision
  split_ifs <;> simp_all

theorem orchRun_idx_le (sigs : List TurnSignal) (st : OrchState) :
    ∀ p ∈ orchRun st sigs, st.itemIdx ≤ p.1 := by
  induction sigs generalizing st with
  | nil => intro p hp; simp [orchRun] at hp
  | cons sig rest ih =>
      intro p hp
      cases hdec : routeDecision sig st.followUpUsed with
      | follow_up =>
          simp only [orchRun, hdec] at hp
          rcases List.mem_cons.mp hp with h | h
          · subst h; exact Nat.le_refl _
          · exact ih ⟨st.itemIdx, true⟩ p h
      | end_interview =>
          simp only [orchRun, hdec, List.mem_singleton] at hp
          subst hp; exact Nat.le_refl _
      | next_question =>
          simp only [orchRun, hdec] at hp
          rcases List.mem_cons.mp hp with h | h
          · subst h; exact Nat.le_refl _
          · have := ih ⟨st.itemIdx + 1, false⟩ p h
            simp at this
            omega
      | switch_persona =>
          simp only [orchRun, hdec] at hp
          rcases List.mem_cons.mp hp with h | h
          · subst h; exact Nat.le_refl _
          · have := ih ⟨st.itemIdx + 1, false⟩ p h
            simp at this
            omega

theorem countFollowUps_eq_zero (i : Nat) (tr : List (Nat × RouteAction))
    (h : ∀ p ∈ tr, i < p.1) : countFollowUps i tr = 0 := by
  induction tr with
  | nil => rfl
  | cons p tr ih =>
      have h1 : i < p.1 := h p (List.mem_cons_self _ _)
      have h2 : ∀ q ∈ tr, i < q.1 := fun q hq => h q (List.mem_cons_of_mem _ hq)
      have hno : ¬(p.1 = i ∧ p.2 = RouteAction.follow_up) := by
        rintro ⟨he, _⟩; omega
      simp [countFollowUps, hno, ih h2]

theorem orchRun_spent_no_followup (sigs : List TurnSignal) (st : OrchState)
    (hu : st.followUpUsed = true) :
    countFollowUps st.itemIdx (orchRun st sigs) = 0 := by
  cases sigs with
  | nil => rfl
  | cons sig rest =>
      have hd : routeDecision sig st.followUpUsed ≠ RouteAction.follow_up := by
        rw [hu]; exact routeDecision_spent_not_followup sig
      have hz : countFollowUps st.itemIdx (orchRun ⟨st.itemIdx + 1, false⟩ rest) = 0 :=
        countFollowUps_eq_zero _ _ (fun p hp => by
          have := orchRun_idx_le rest ⟨st.itemIdx + 1, false⟩ p hp
          simp at this
          omega)
      cases hdec : routeDecision sig st.followUpUsed with
      | follow_up => exact absurd hdec hd
      | end_interview => simp [orchRun, hdec, countFollowUps]
      | next_question => simp [orchRun, hdec, countFollowUps, hz]
      | switch_persona => simp [orchRun, hdec, countFollowUps, hz]

/-- C7: in every routing trace the orchestrator emits `follow_up` for a
given plan item at most once — after one follow-up on an item, the next
decision for it is a forced advance, never a second follow-up. -/
theorem followup_at_most_once_per_item (st : OrchState) (sigs : List TurnSignal) (i : Nat) :
    countFollowUps i (orchRun st sigs) ≤ 1 := by
  induction sigs generalizing st with
  | nil => simp [orchRun, countFollowUps]
  | cons sig rest ih =>
      cases hdec : routeDecision sig st.followUpUsed with
      | follow_up =>
          by_cases hi : st.itemIdx = i
          · subst hi
            have hz := orchRun_spent_no_followup rest ⟨st.itemIdx, true⟩ rfl
            simp only at hz
            simp [orchRun, hdec, countFollowUps, hz]
          · simpa [orchRun, hdec, countFollowUps, hi] using ih ⟨st.itemIdx, true⟩
      | end_interview => simp [orchRun, hdec, countFollowUps]
      | next_question =>
          simpa [orchRun, hdec, countFollowUps] using ih ⟨st.itemIdx + 1, false⟩
      | switch_persona =>
          simpa [orchRun, hdec, countFollowUps] using ih ⟨st.itemIdx + 1, false⟩

end InterviewPilot
